import Mathlib

/-!
Shallow embedding of the signalstrader repository (TypeScript) in Lean 4.

The embedding follows the source files:
  - `src/signalParser.ts` (message normalization / classification),
  - `src/tradeExecutor.ts` (order sizing, execution, position ledger),
  - `src/signalSubscriber.ts` (message handling, live Redis reconfiguration),
  - `src/config.ts` (hard-coded limits).

Modelling conventions:
  - JavaScript numbers are modelled as exact rationals (`ℚ`); `toFixed(d)`
    is decimal rounding with ties away from zero toward `+∞` (the ECMAScript
    `toFixed` tie rule), `Math.floor`-based decimal truncation is `Int.floor`.
    Binary floating-point representation noise is not modelled.
  - JSON field values are `JVal` (string, number, boolean, null); a missing
    field is `Option.none` (JavaScript `undefined`).
  - `Number(string)` and `parseFloat(string)` are modelled for decimal
    notation with optional sign, fraction and exponent; exotic forms such as
    hexadecimal literals are treated as NaN (`none`).  All call sites only
    test finiteness or compare the parsed value, which keeps the uses faithful.
  - Asynchronous I/O (balance fetch, order posting, Redis connect, the
    market-binding callback) is supplied as explicit oracle values; each
    function returns its new state together with the list of externally
    visible actions it performed.
-/

set_option maxRecDepth 8000
set_option maxHeartbeats 2000000

namespace SignalsTrader

/-- Signal direction, `'BUY' | 'SELL'` in `src/types.ts`. -/
inductive Direction
  | BUY
  | SELL
deriving DecidableEq, Repr

/-- Outcome token, `'UP' | 'DOWN'` in `src/types.ts`. -/
inductive Token
  | UP
  | DOWN
deriving DecidableEq, Repr

/-- One JSON field value (string, number, boolean or null). -/
inductive JVal
  | str (s : String)
  | num (q : ℚ)
  | bool (b : Bool)
  | null
deriving DecidableEq, Repr

/-- JavaScript truthiness test on a JSON value: `''`, `0`, `false`, `null`
are falsy. -/
def jsFalsy : JVal → Bool
  | .str s => s == ""
  | .num q => q == 0
  | .bool b => !b
  | .null => true

/-- `String(n)` for a JavaScript number: exact for integers; non-integer
numbers are mapped to a placeholder that matches no direction/token alias
and no slug (in the source such values never normalize successfully
either, because their decimal renderings are not aliases or slugs). -/
def numToString (q : ℚ) : String :=
  if q.den = 1 then toString q.num else "?"

/-- `String(v)` on a JSON value. -/
def jvalToString : JVal → String
  | .str s => s
  | .num q => numToString q
  | .bool b => if b then "true" else "false"
  | .null => "null"

/-- The idiom `String(raw || '')` used by the normalizers: a missing or
falsy value becomes the empty string. -/
def jsToStringOrEmpty : Option JVal → String
  | none => ""
  | some v => if jsFalsy v then "" else jvalToString v

/-- JavaScript `String.prototype.trim`: strip leading and trailing
whitespace (modelled on the ASCII whitespace characters). -/
def jsTrim (s : String) : String :=
  ⟨((s.data.dropWhile Char.isWhitespace).reverse.dropWhile
      Char.isWhitespace).reverse⟩

/-- JavaScript `String.prototype.toLowerCase` (ASCII case mapping). -/
def jsToLower (s : String) : String :=
  ⟨s.data.map Char.toLower⟩

/-- Longest digit prefix of a character list. -/
def takeDigits : List Char → List Char × List Char
  | [] => ([], [])
  | c :: rest =>
    if c.isDigit then
      let (ds, r) := takeDigits rest
      (c :: ds, r)
    else ([], c :: rest)

/-- Numeric value of a digit list. -/
def digitsVal (ds : List Char) : Nat :=
  ds.foldl (fun acc c => acc * 10 + (c.toNat - '0'.toNat)) 0

/-- Optional leading sign. -/
def stripSign : List Char → Int × List Char
  | '+' :: rest => (1, rest)
  | '-' :: rest => (-1, rest)
  | cs => (1, cs)

/-- Value of a parsed decimal literal `sign integer.fraction e exponent`. -/
def decimalValue (sg : Int) (ds fs : List Char) (ex : Int) : ℚ :=
  (sg : ℚ) * ((digitsVal ds : ℚ) + (digitsVal fs : ℚ) / (10 : ℚ) ^ fs.length) *
    (10 : ℚ) ^ ex

/-- Strict decimal parse of a whole (trimmed, nonempty) character list,
modelling `Number(text)`; `none` is NaN. -/
def jsNumberCore (cs : List Char) : Option ℚ :=
  let (sg, cs1) := stripSign cs
  let (ds, r1) := takeDigits cs1
  let (fs, r2) :=
    match r1 with
    | '.' :: rest => takeDigits rest
    | _ => ([], r1)
  if ds.isEmpty && fs.isEmpty then none
  else
    match r2 with
    | [] => some (decimalValue sg ds fs 0)
    | c :: rest =>
      if c = 'e' ∨ c = 'E' then
        let (esg, rest1) := stripSign rest
        let (eds, r3) := takeDigits rest1
        if eds.isEmpty ∨ !r3.isEmpty then none
        else some (decimalValue sg ds fs (esg * (digitsVal eds : Int)))
      else none

/-- `Number(s)` on a string: the empty (or all-whitespace) string is `0`,
otherwise a strict decimal parse; `none` is NaN. -/
def jsNumber (s : String) : Option ℚ :=
  let t := jsTrim s
  if t = "" then some 0 else jsNumberCore t.data

/-- `Number.parseFloat(s)`: longest valid decimal prefix; `none` is NaN. -/
def jsParseFloat (s : String) : Option ℚ :=
  let cs := (jsTrim s).data
  let (sg, cs1) := stripSign cs
  let (ds, r1) := takeDigits cs1
  let (fs, r2) :=
    match r1 with
    | '.' :: rest => takeDigits rest
    | _ => ([], r1)
  if ds.isEmpty && fs.isEmpty then none
  else
    match r2 with
    | c :: rest =>
      if c = 'e' ∨ c = 'E' then
        let (esg, rest1) := stripSign rest
        let (eds, _) := takeDigits rest1
        if eds.isEmpty then some (decimalValue sg ds fs 0)
        else some (decimalValue sg ds fs (esg * (digitsVal eds : Int)))
      else some (decimalValue sg ds fs 0)
    | [] => some (decimalValue sg ds fs 0)

/-- `Number(v)` on a JSON value (`undefined` is NaN, `null` is `0`,
booleans are `0`/`1`). -/
def jsNumberOfJVal : Option JVal → Option ℚ
  | none => none
  | some (.num q) => some q
  | some (.str s) => jsNumber s
  | some (.bool b) => some (if b then 1 else 0)
  | some .null => some 0

/-- `Number(x.toFixed(d))`: rounding to `d` decimal places, ties toward
`+∞` (the ECMAScript `toFixed` rule on exact values). -/
def toFixedRound (d : Nat) (q : ℚ) : ℚ :=
  ((⌊q * (10 : ℚ) ^ d + 1 / 2⌋ : ℤ) : ℚ) / (10 : ℚ) ^ d

/-- `roundDown` from `tradeExecutor.ts`: `Math.floor(value * 10^d) / 10^d`. -/
def roundDown (d : Nat) (q : ℚ) : ℚ :=
  ((⌊q * (10 : ℚ) ^ d⌋ : ℤ) : ℚ) / (10 : ℚ) ^ d

/-! ## Message normalization (`src/signalParser.ts`) -/

/-- `normalizeDirection` from `signalParser.ts`. -/
def normalizeDirection (raw : Option JVal) : Except String Direction :=
  let value := jsToLower (jsTrim (jsToStringOrEmpty raw))
  if value = "buy" ∨ value = "b" then .ok .BUY
  else if value = "sell" ∨ value = "s" then .ok .SELL
  else .error "Invalid signal direction"

/-- `normalizeToken` from `signalParser.ts`. -/
def normalizeToken (raw : Option JVal) : Except String Token :=
  let value := jsToLower (jsTrim (jsToStringOrEmpty raw))
  if value = "up" ∨ value = "yes" ∨ value = "long" ∨ value = "1" then .ok .UP
  else if value = "down" ∨ value = "no" ∨ value = "short" ∨ value = "0" then .ok .DOWN
  else .error "Invalid signal token"

/-- Threshold `1e12` separating second-resolution from millisecond-resolution
timestamps. -/
def TS_MS_THRESHOLD : ℚ := (10 : ℚ) ^ 12

/-- `Date.parse` on a non-numeric string.  Calendar-date parsing is abstracted
as always unparsable; no verified claim exercises calendar-date timestamps. -/
def jsDateParse (_s : String) : Option Int := none

/-- `normalizeTimestamp` from `signalParser.ts`. -/
def normalizeTimestamp (raw : Option JVal) : Except String Int :=
  match raw with
  | some (.num q) => .ok (if q < TS_MS_THRESHOLD then ⌊q * 1000⌋ else ⌊q⌋)
  | some (.str s) =>
    match jsNumber s with
    | some q => .ok (if q < TS_MS_THRESHOLD then ⌊q * 1000⌋ else ⌊q⌋)
    | none =>
      match jsDateParse s with
      | some t => .ok t
      | none => .error "Invalid signal timestamp"
  | _ => .error "Invalid signal timestamp"

/-- The percentage-conversion step of `normalizePrice`:
`value > 1 ? value / 100 : value`. -/
def convertPrice (value : ℚ) : ℚ :=
  if value > 1 then value / 100 else value

/-- `normalizePrice` from `signalParser.ts`: values above 1 are percentages,
the converted value must be strictly inside (0,1), the result is the value
rounded to 4 decimal places. -/
def normalizePrice (raw : Option JVal) : Except String ℚ :=
  match jsNumberOfJVal raw with
  | none => .error "Invalid signal price"
  | some value =>
    let price := convertPrice value
    if price ≤ 0 ∨ price ≥ 1 then .error "Signal price must be in (0,1)"
    else .ok (toFixedRound 4 price)

/-- One character of the slug alphabet `[a-z0-9-]`. -/
def slugChar (c : Char) : Bool :=
  ('a' ≤ c && c ≤ 'z') || c.isDigit || c = '-'

/-- `normalizeMarketSlug` from `signalParser.ts`: trim, lowercase, must match
`^[a-z0-9-]{6,}$`. -/
def normalizeMarketSlug (raw : Option JVal) : Except String String :=
  let value := jsToLower (jsTrim (jsToStringOrEmpty raw))
  if value = "" then .error "Missing market slug in Redis message."
  else if 6 ≤ value.length && value.data.all slugChar then .ok value
  else .error "Invalid market slug"

/-- A JSON object payload, restricted to the fields the parser reads; a
`none` field is absent (`undefined`). -/
structure Payload where
  timestamp : Option JVal := none
  ts : Option JVal := none
  time : Option JVal := none
  direction : Option JVal := none
  side : Option JVal := none
  orderSide : Option JVal := none
  action : Option JVal := none
  token : Option JVal := none
  outcome : Option JVal := none
  marketSide : Option JVal := none
  position : Option JVal := none
  limitPrice : Option JVal := none
  limit_price : Option JVal := none
  price : Option JVal := none
  market_slug : Option JVal := none
  marketSlug : Option JVal := none
  slug : Option JVal := none
deriving DecidableEq, Repr

/-- The `??` operator: the right operand is used when the left is missing
(`undefined`) or null. -/
def jcoalesce (a b : Option JVal) : Option JVal :=
  match a with
  | some .null => b
  | none => b
  | some v => some v

/-- `payload.timestamp ?? payload.ts ?? payload.time`. -/
def effTimestamp (p : Payload) : Option JVal :=
  jcoalesce (jcoalesce p.timestamp p.ts) p.time

/-- `payload.direction ?? payload.side ?? payload.orderSide ?? payload.action`. -/
def effDirection (p : Payload) : Option JVal :=
  jcoalesce (jcoalesce (jcoalesce p.direction p.side) p.orderSide) p.action

/-- `payload.token ?? payload.outcome ?? payload.marketSide ?? payload.position`. -/
def effToken (p : Payload) : Option JVal :=
  jcoalesce (jcoalesce (jcoalesce p.token p.outcome) p.marketSide) p.position

/-- `payload.limitPrice ?? payload.limit_price ?? payload.price`. -/
def effPrice (p : Payload) : Option JVal :=
  jcoalesce (jcoalesce p.limitPrice p.limit_price) p.price

/-- `payload.market_slug ?? payload.marketSlug ?? payload.slug`. -/
def effSlug (p : Payload) : Option JVal :=
  jcoalesce (jcoalesce p.market_slug p.marketSlug) p.slug

/-- A fully validated trading signal (`TradingSignal` in `src/types.ts`). -/
structure TradingSignal where
  timestampMs : Int
  direction : Direction
  token : Token
  limitPrice : ℚ
  marketSlug : String
  raw : Payload
deriving DecidableEq, Repr

/-- A market rebinding message (`MarketUpdate` in `src/types.ts`). -/
structure MarketUpdate where
  timestampMs : Int
  marketSlug : String
  raw : Payload
deriving DecidableEq, Repr

/-- `ParsedRedisMessage` from `src/types.ts`. -/
inductive ParsedRedisMessage
  | signal (s : TradingSignal)
  | market (u : MarketUpdate)
deriving DecidableEq, Repr

/-- `parseSignalPayload` from `signalParser.ts`; the field normalizers run
in the object-literal evaluation order of the source. -/
def parseSignalPayload (p : Payload) : Except String TradingSignal := do
  let timestampMs ← normalizeTimestamp (effTimestamp p)
  let direction ← normalizeDirection (effDirection p)
  let token ← normalizeToken (effToken p)
  let limitPrice ← normalizePrice (effPrice p)
  let marketSlug ← normalizeMarketSlug (effSlug p)
  .ok { timestampMs, direction, token, limitPrice, marketSlug, raw := p }

/-- `payload.direction !== undefined || ...` presence test. -/
def hasDirectionField (p : Payload) : Bool :=
  p.direction.isSome || p.side.isSome || p.orderSide.isSome || p.action.isSome

/-- `payload.token !== undefined || ...` presence test. -/
def hasTokenField (p : Payload) : Bool :=
  p.token.isSome || p.outcome.isSome || p.marketSide.isSome || p.position.isSome

/-- `payload.limitPrice !== undefined || ...` presence test. -/
def hasPriceField (p : Payload) : Bool :=
  p.limitPrice.isSome || p.limit_price.isSome || p.price.isSome

/-- The payload carries none of the signal-only fields (under any alias). -/
def carriesNoSignalField (p : Payload) : Bool :=
  !hasDirectionField p && !hasTokenField p && !hasPriceField p

/-- `parseRedisMessage` from `signalParser.ts`, applied to an already
JSON-decoded object; `now` is `Date.now()`. -/
def parseRedisMessage (now : Int) (p : Payload) : Except String ParsedRedisMessage :=
  let marketSlugRaw := effSlug p
  let timestampRaw := jcoalesce (effTimestamp p) (some (.num (now : ℚ)))
  if carriesNoSignalField p then do
    let timestampMs ← normalizeTimestamp timestampRaw
    let marketSlug ← normalizeMarketSlug marketSlugRaw
    .ok (.market { timestampMs, marketSlug, raw := p })
  else do
    let s ← parseSignalPayload p
    .ok (.signal s)

/-! ## Trade executor (`src/tradeExecutor.ts`) -/

/-- `RedisRuntimeConfig` from `src/types.ts`. -/
structure RedisRuntimeConfig where
  host : String
  port : ℚ
  channel : String
  password : Option String := none
deriving DecidableEq, Repr

/-- `ResolvedMarket` from `src/types.ts`. -/
structure ResolvedMarket where
  sourceText : String
  eventSlug : String
  marketSlug : String
  marketQuestion : String
  upTokenId : String
  downTokenId : String
  redisConfigFromInstruction : Option RedisRuntimeConfig := none
deriving DecidableEq, Repr

/-- The fields of `AppConfig` (`src/config.ts`) that the verified components
read. -/
structure AppConfig where
  sharesPerTrade : ℚ
  signalMaxAgeMs : Int
deriving DecidableEq, Repr

/-- `HARD_CODED_SIGNAL_MAX_AGE_MS` from `src/config.ts`; `loadConfig` always
stores this value in `signalMaxAgeMs`. -/
def HARD_CODED_SIGNAL_MAX_AGE_MS : Int := 1000

/-- `SELL_SAFETY_BUFFER_SHARES` from `tradeExecutor.ts`. -/
def SELL_SAFETY_BUFFER_SHARES : ℚ := 1 / 2

/-- `SELL_SIZE_DECIMALS` from `tradeExecutor.ts`. -/
def SELL_SIZE_DECIMALS : Nat := 1

/-- The per-outcome position ledger `knownShares`. -/
structure Shares where
  up : ℚ
  down : ℚ
deriving DecidableEq, Repr

/-- Read one outcome's ledger entry. -/
def Shares.get (s : Shares) : Token → ℚ
  | .UP => s.up
  | .DOWN => s.down

/-- Overwrite one outcome's ledger entry. -/
def Shares.set (s : Shares) : Token → ℚ → Shares
  | .UP, q => { s with up := q }
  | .DOWN, q => { s with down := q }

/-- Structural model of the human-readable `lastTradeSummary` string. -/
inductive TradeSummary
  | initial
  | skippedTrade (direction : Direction) (token : Token)
  | sent (direction : Direction) (token : Token) (price size : ℚ)
  | failedTrade (direction : Direction) (token : Token) (price size : ℚ)
deriving DecidableEq, Repr

/-- The mutable fields of `TradeExecutor`. -/
structure ExecutorState where
  market : Option ResolvedMarket := none
  sentCount : Nat := 0
  failedCount : Nat := 0
  lastTradeAtMs : Option Int := none
  lastOrderId : Option String := none
  lastTradeSummary : TradeSummary := .initial
  knownShares : Shares := { up := 0, down := 0 }
deriving DecidableEq, Repr

/-- The `changed` test of `TradeExecutor.updateMarket`: no market bound yet,
or the identity triple `(marketSlug, upTokenId, downTokenId)` differs. -/
def marketIdentityChanged (cur : Option ResolvedMarket) (market : ResolvedMarket) : Bool :=
  match cur with
  | none => true
  | some c =>
    c.marketSlug != market.marketSlug ||
    c.upTokenId != market.upTokenId ||
    c.downTokenId != market.downTokenId

/-- `TradeExecutor.updateMarket`. -/
def updateMarket (st : ExecutorState) (market : ResolvedMarket) : ExecutorState :=
  let changed := marketIdentityChanged st.market market
  let st1 := { st with market := some market }
  if changed then { st1 with knownShares := { up := 0, down := 0 } } else st1

/-- `TradeExecutor.mapTokenToId` (with the bound market supplied). -/
def mapTokenToId (m : ResolvedMarket) : Token → String
  | .UP => m.upTokenId
  | .DOWN => m.downTokenId

/-- Strip one leading and one trailing quote character, the regex
`replace(/^['"]|['"]$/g, '')`. -/
def stripQuotes (s : String) : String :=
  let isQuote : Char → Bool := fun c => c = '\'' || c = '"'
  let l :=
    match s.data with
    | c :: rest => if isQuote c then rest else c :: rest
    | [] => []
  let l2 :=
    match l.reverse with
    | c :: rest => if isQuote c then rest.reverse else l
    | [] => []
  ⟨l2⟩

/-- `TradeExecutor.parseMaybeFixed6`: integral values of magnitude at least
100000 are micro-shares. (`Number.isFinite` is always true in the rational
model, so the float branch keeps `parseFloat`'s value whenever it parses.) -/
def parseMaybeFixed6 (value : Option JVal) : ℚ :=
  match value with
  | none => 0
  | some .null => 0
  | some v =>
    let text := stripQuotes (jsTrim (jvalToString v))
    if text = "" then 0
    else if text.data.contains '.' then
      match jsParseFloat text with
      | some q => q
      | none => 0
    else
      match jsNumber text with
      | none => 0
      | some n => if 100000 ≤ |n| then n / 1000000 else n

/-- Outcome of the balance refresh I/O in `syncConditionalBalance`:
`unsupported` models a client without `getBalanceAllowance`, `failure` a
thrown error, `ok` a response whose `balance` field is the given value. -/
inductive BalanceFetch
  | unsupported
  | failure
  | ok (balance : Option JVal)
deriving DecidableEq, Repr

/-- `TradeExecutor.syncConditionalBalance`: returns the shares available for
the token and the (possibly updated) state.  The cache is overwritten only
when the parsed balance is nonnegative (`Number.isFinite` always holds in
the rational model). -/
def syncConditionalBalance (fetch : BalanceFetch) (token : Token)
    (st : ExecutorState) : ℚ × ExecutorState :=
  match fetch with
  | .unsupported => (st.knownShares.get token, st)
  | .failure => (st.knownShares.get token, st)
  | .ok bal =>
    let balance := parseMaybeFixed6 bal
    if 0 ≤ balance then
      let st1 := { st with knownShares := st.knownShares.set token balance }
      (st1.knownShares.get token, st1)
    else
      (st.knownShares.get token, st)

/-- `TradeExecutor.computeOrderSize`: BUY uses the configured share count;
SELL caps by the refreshed balance, subtracts the safety buffer and rounds
down to one decimal place (the final `toFixed` is the source's
`Number(roundedDown.toFixed(1))`). -/
def computeOrderSize (config : AppConfig) (fetch : BalanceFetch)
    (signal : TradingSignal) (st : ExecutorState) : ℚ × ExecutorState :=
  match signal.direction with
  | .BUY => (config.sharesPerTrade, st)
  | .SELL =>
    let (availableShares, st1) := syncConditionalBalance fetch signal.token st
    let tradeCap := min config.sharesPerTrade availableShares
    let buffered := tradeCap - SELL_SAFETY_BUFFER_SHARES
    let roundedDown := roundDown SELL_SIZE_DECIMALS buffered
    (toFixedRound SELL_SIZE_DECIMALS roundedDown, st1)

/-- Result of `client.postOrder` (`ok` carries `response?.orderID`). -/
inductive PostOutcome
  | ok (orderId : Option JVal)
  | failure (msg : String)
deriving DecidableEq, Repr

/-- Oracle inputs of one `execute` call: config, balance-fetch response,
`createOrder` result, `postOrder` result and the current clock. -/
structure ExecEnv where
  config : AppConfig
  fetch : BalanceFetch
  createResult : Except String Unit
  postResult : PostOutcome
  now : Int
deriving Repr

/-- Externally visible actions of `execute` (order creation / submission;
the fixed `expiration = 0` and `feeRateBps = 1000` arguments are constants
in the source and are omitted from the event). -/
inductive ExecEvent
  | createOrder (tokenId : String) (side : Direction) (price size : ℚ)
  | postOrder (tokenId : String) (side : Direction) (price size : ℚ)
deriving DecidableEq, Repr

/-- How one `execute` call ends; the `err*` constructors model the thrown
errors of the source. -/
inductive ExecOutcome
  | completed
  | skipped
  | errNoActiveMarket
  | errMarketMismatch
  | errCreateFailed (msg : String)
  | errTradeFailed (msg : String)
deriving DecidableEq, Repr

/-- The submitted limit price: the signal's price clamped to
`[0.01, 0.99]` and rounded to 2 decimal places
(`Number(Math.min(0.99, Math.max(0.01, signal.limitPrice)).toFixed(2))`). -/
def execPrice (signal : TradingSignal) : ℚ :=
  toFixedRound 2 (min (99 / 100 : ℚ) (max (1 / 100 : ℚ) signal.limitPrice))

/-- `response?.orderID ? String(response.orderID) : 'n/a'`. -/
def orderIdString : Option JVal → String
  | some v => if jsFalsy v then "n/a" else jvalToString v
  | none => "n/a"

/-- `TradeExecutor.execute`. -/
def execute (env : ExecEnv) (signal : TradingSignal) (st : ExecutorState) :
    ExecOutcome × ExecutorState × List ExecEvent :=
  match st.market with
  | none => (.errNoActiveMarket, st, [])
  | some market =>
    if signal.marketSlug ≠ market.marketSlug then
      (.errMarketMismatch, st, [])
    else
      let tokenId := mapTokenToId market signal.token
      let side := signal.direction
      let (size, st1) := computeOrderSize env.config env.fetch signal st
      let price := execPrice signal
      if size ≤ 0 then
        (.skipped,
         { st1 with lastTradeAtMs := some env.now,
                    lastTradeSummary := .skippedTrade signal.direction signal.token },
         [])
      else
        match env.createResult with
        | .error msg => (.errCreateFailed msg, st1, [.createOrder tokenId side price size])
        | .ok _ =>
          match env.postResult with
          | .ok orderIdRaw =>
            let orderId := orderIdString orderIdRaw
            let st2 :=
              { st1 with
                sentCount := st1.sentCount + 1,
                lastTradeAtMs := some env.now,
                lastOrderId := some orderId,
                lastTradeSummary := .sent signal.direction signal.token price size,
                knownShares :=
                  match signal.direction with
                  | .BUY =>
                    st1.knownShares.set signal.token
                      (toFixedRound 6 (st1.knownShares.get signal.token + size))
                  | .SELL =>
                    st1.knownShares.set signal.token
                      (max 0 (toFixedRound 6 (st1.knownShares.get signal.token - size))) }
            (.completed, st2, [.createOrder tokenId side price size, .postOrder tokenId side price size])
          | .failure msg =>
            (.errTradeFailed msg,
             { st1 with
               failedCount := st1.failedCount + 1,
               lastTradeAtMs := some env.now,
               lastTradeSummary := .failedTrade signal.direction signal.token price size },
             [.createOrder tokenId side price size, .postOrder tokenId side price size])

/-! ## Signal subscriber (`src/signalSubscriber.ts`) -/

/-- An ioredis connection handle: an identity plus the `status` string the
source inspects (`'ready'`, `'connect'`, ...). -/
structure Conn where
  id : Nat
  status : String
deriving DecidableEq, Repr

/-- Structural model of the `lastSignalSummary` string. -/
inductive SignalSummary
  | initial
  | marketUpd (slug : String)
  | sig (direction : Direction) (token : Token) (price : ℚ) (slug : String)
deriving DecidableEq, Repr

/-- The mutable fields of `SignalSubscriber`. -/
structure SubscriberState where
  redis : Option Conn := none
  currentHost : String
  currentPort : ℚ
  currentChannel : String
  currentPassword : Option String := none
  connected : Bool := false
  receivedCount : Nat := 0
  staleCount : Nat := 0
  processedCount : Nat := 0
  failedCount : Nat := 0
  lastSignalAtMs : Option Int := none
  lastSignalSummary : SignalSummary := .initial
deriving DecidableEq, Repr

/-- A runtime reconfiguration request, `Partial<RedisRuntimeConfig>`:
every field may be absent. -/
structure RedisTargetPatch where
  host : Option String := none
  port : Option ℚ := none
  channel : Option String := none
  password : Option String := none
deriving DecidableEq, Repr

/-- Effective host of a reconfiguration request: `(next.host || current).trim()`
(an absent or empty host falls back to the current one). -/
def nextHostOf (next : RedisTargetPatch) (st : SubscriberState) : String :=
  jsTrim
    (match next.host with
     | some h => if h = "" then st.currentHost else h
     | none => st.currentHost)

/-- Effective port: `Number.isFinite(Number(next.port)) ? Number(next.port)
: current` (a present rational is always finite in the model). -/
def nextPortOf (next : RedisTargetPatch) (st : SubscriberState) : ℚ :=
  match next.port with
  | some p => p
  | none => st.currentPort

/-- Effective channel: `(next.channel || current).trim()`. -/
def nextChannelOf (next : RedisTargetPatch) (st : SubscriberState) : String :=
  jsTrim
    (match next.channel with
     | some c => if c = "" then st.currentChannel else c
     | none => st.currentChannel)

/-- Effective password: a present string with nonempty trim, else the
current one. -/
def nextPasswordOf (next : RedisTargetPatch) (st : SubscriberState) : Option String :=
  match next.password with
  | some pw => if jsTrim pw ≠ "" then some pw else st.currentPassword
  | none => st.currentPassword

/-- Externally visible Redis actions of `updateRedisTarget`. -/
inductive RedisAction
  | connectAttempt (host : String) (port : ℚ) (channel : String) (password : Option String)
  | disconnectConn (id : Nat)
  | unsubscribe (channel : String)
  | subscribe (channel : String)
deriving DecidableEq, Repr

/-- Oracle for one `connectAndSubscribe` call: the freshly constructed
connection object and whether `subscribe` resolves. -/
structure ConnectOracle where
  conn : Conn
  subscribeOk : Bool
deriving DecidableEq, Repr

/-- `SignalSubscriber.updateRedisTarget`.  `connectAndSubscribe` is inlined:
it first stores the new connection in `redis`, then awaits `subscribe`; only
on success does it commit the `current*` target fields.  Asynchronous status
events (`connect`/`close` handlers) are outside this synchronous step. -/
def updateRedisTarget (oracle : ConnectOracle) (next : RedisTargetPatch)
    (st : SubscriberState) : SubscriberState × List RedisAction :=
  let nextHost := nextHostOf next st
  let nextPort := nextPortOf next st
  let nextChannel := nextChannelOf next st
  let nextPassword := nextPasswordOf next st
  if nextHost = "" ∨ nextChannel = "" ∨ nextPort ≤ 0 then (st, [])
  else
    let hostChanged := nextHost ≠ st.currentHost
    let portChanged := nextPort ≠ st.currentPort
    let channelChanged := nextChannel ≠ st.currentChannel
    let passwordChanged := nextPassword ≠ st.currentPassword
    if ¬hostChanged ∧ ¬portChanged ∧ ¬channelChanged ∧ ¬passwordChanged then (st, [])
    else if hostChanged ∨ portChanged ∨ passwordChanged then
      let previousRedis := st.redis
      let attempt := RedisAction.connectAttempt nextHost nextPort nextChannel nextPassword
      let st1 := { st with redis := some oracle.conn }
      if oracle.subscribeOk then
        let st2 :=
          { st1 with
            currentHost := nextHost, currentPort := nextPort,
            currentChannel := nextChannel, currentPassword := nextPassword }
        match previousRedis with
        | some prev =>
          if some prev ≠ st2.redis then (st2, [attempt, .disconnectConn prev.id])
          else (st2, [attempt])
        | none => (st2, [attempt])
      else
        let disconnectNew :=
          if st1.redis.isSome ∧ st1.redis ≠ previousRedis then
            [RedisAction.disconnectConn oracle.conn.id]
          else []
        let st2 := { st1 with redis := previousRedis }
        match previousRedis with
        | some prev =>
          ({ st2 with connected := prev.status = "ready" ∨ prev.status = "connect" },
           attempt :: disconnectNew)
        | none => ({ st2 with connected := false }, attempt :: disconnectNew)
    else
      match st.redis with
      | some _ =>
        ({ st with currentChannel := nextChannel },
         [.unsubscribe st.currentChannel, .subscribe nextChannel])
      | none =>
        ({ st with
           currentHost := nextHost, currentPort := nextPort,
           currentChannel := nextChannel, currentPassword := nextPassword }, [])

/-- Outcome of the single `onMarketSlug` callback invocation during one
message: `bound m` models `setActiveMarket` resolving and propagating a new
market to the executor, `skippedBind` an early-returned callback (empty or
already-active slug), `raised` a thrown error. -/
inductive BindOutcome
  | bound (market : ResolvedMarket)
  | skippedBind
  | raised (msg : String)
deriving DecidableEq, Repr

/-- Effect of the `onMarketSlug` callback on the executor state. -/
def applyBind (outcome : BindOutcome) (ex : ExecutorState) : Except String ExecutorState :=
  match outcome with
  | .raised msg => .error msg
  | .skippedBind => .ok ex
  | .bound m => .ok (updateMarket ex m)

/-- The `source` tag of an `onMarketSlug` call. -/
inductive MsgSource
  | signal
  | market
deriving DecidableEq, Repr

/-- Calls made by `handleMessage` into its collaborators. -/
inductive SubEvent
  | bindCall (slug : String) (source : MsgSource)
  | executeCall (signal : TradingSignal)
deriving DecidableEq, Repr

/-- The subscriber plus the executor it drives. -/
structure PipelineState where
  sub : SubscriberState
  exec : ExecutorState
deriving DecidableEq, Repr

/-- Oracle inputs of one `handleMessage` call. -/
structure HandleEnv where
  execEnv : ExecEnv
  onBind : BindOutcome
deriving Repr

/-- `SignalSubscriber.handleMessage`.  The JSON text decoding
(`extractObject`) is represented by the already-decoded `input` argument
(`Except.error` is a malformed message).  A throw anywhere in the body is
caught once: `failedCount` is incremented and the error is re-raised to the
queue worker. -/
def handleMessage (env : HandleEnv) (input : Except String Payload)
    (pst : PipelineState) : PipelineState × List SubEvent :=
  let sub0 := { pst.sub with receivedCount := pst.sub.receivedCount + 1 }
  match input.bind (fun p => parseRedisMessage env.execEnv.now p) with
  | .error _ =>
    ({ pst with sub := { sub0 with failedCount := sub0.failedCount + 1 } }, [])
  | .ok (.market u) =>
    let sub1 := { sub0 with lastSignalAtMs := some env.execEnv.now,
                            lastSignalSummary := .marketUpd u.marketSlug }
    match applyBind env.onBind pst.exec with
    | .error _ =>
      ({ sub := { sub1 with failedCount := sub1.failedCount + 1 }, exec := pst.exec },
       [.bindCall u.marketSlug .market])
    | .ok ex1 =>
      ({ sub := { sub1 with processedCount := sub1.processedCount + 1 }, exec := ex1 },
       [.bindCall u.marketSlug .market])
  | .ok (.signal signal) =>
    let sub1 := { sub0 with
      lastSignalAtMs := some env.execEnv.now,
      lastSignalSummary := .sig signal.direction signal.token signal.limitPrice signal.marketSlug }
    let ageMs := env.execEnv.now - signal.timestampMs
    if env.execEnv.config.signalMaxAgeMs < ageMs then
      let sub2 := { sub1 with staleCount := sub1.staleCount + 1 }
      match applyBind env.onBind pst.exec with
      | .error _ =>
        ({ sub := { sub2 with failedCount := sub2.failedCount + 1 }, exec := pst.exec },
         [.bindCall signal.marketSlug .signal])
      | .ok ex1 =>
        ({ sub := sub2, exec := ex1 }, [.bindCall signal.marketSlug .signal])
    else
      match applyBind env.onBind pst.exec with
      | .error _ =>
        ({ sub := { sub1 with failedCount := sub1.failedCount + 1 }, exec := pst.exec },
         [.bindCall signal.marketSlug .signal])
      | .ok ex1 =>
        let res := execute env.execEnv signal ex1
        match res.1 with
        | .completed =>
          ({ sub := { sub1 with processedCount := sub1.processedCount + 1 }, exec := res.2.1 },
           [.bindCall signal.marketSlug .signal, .executeCall signal])
        | .skipped =>
          ({ sub := { sub1 with processedCount := sub1.processedCount + 1 }, exec := res.2.1 },
           [.bindCall signal.marketSlug .signal, .executeCall signal])
        | _ =>
          ({ sub := { sub1 with failedCount := sub1.failedCount + 1 }, exec := res.2.1 },
           [.bindCall signal.marketSlug .signal, .executeCall signal])

/-! ## Shared fixtures and helper lemmas -/

/-- A concrete resolved market used by witnesses. -/
def sampleMarket : ResolvedMarket :=
  { sourceText := "btc-updown-15m", eventSlug := "btc-updown-15m",
    marketSlug := "btc-updown-15m", marketQuestion := "BTC up or down?",
    upTokenId := "tok-up", downTokenId := "tok-down" }

/-- A concrete BUY signal for `sampleMarket`. -/
def sampleSignal : TradingSignal :=
  { timestampMs := 1700000000000, direction := .BUY, token := .UP,
    limitPrice := 47 / 100, marketSlug := "btc-updown-15m", raw := {} }

/-- A concrete SELL signal for `sampleMarket`. -/
def sampleSellSignal : TradingSignal :=
  { sampleSignal with direction := .SELL }

/-- The default configuration: ten shares per trade, 1000 ms staleness cap. -/
def sampleConfig : AppConfig :=
  { sharesPerTrade := 10, signalMaxAgeMs := HARD_CODED_SIGNAL_MAX_AGE_MS }

/-- Executor state with `sampleMarket` bound and an untouched ledger. -/
def sampleBoundState : ExecutorState := { market := some sampleMarket }

/-- Oracle set for a SELL against an authoritative balance of 3.2 shares. -/
def sampleSellEnv : ExecEnv :=
  { config := sampleConfig, fetch := .ok (some (.str "3.2")),
    createResult := .ok (), postResult := .ok (some (.str "oid-1")),
    now := 1700000000500 }

/-- Oracle set for a SELL against an authoritative balance of 0.3 shares. -/
def sampleSkipEnv : ExecEnv :=
  { sampleSellEnv with fetch := .ok (some (.str "0.3")) }

/-- Rounding a value that is already a multiple of `10^-d` with `toFixed`
leaves it unchanged; in particular the source's
`Number(roundedDown.toFixed(1))` is the identity after `roundDown`. -/
theorem toFixedRound_roundDown (d : Nat) (q : ℚ) :
    toFixedRound d (roundDown d q) = roundDown d q := by
  unfold toFixedRound roundDown
  have hpow : ((10 : ℚ) ^ d) ≠ 0 := by positivity
  rw [div_mul_cancel₀ _ hpow, Int.floor_int_add]
  norm_num

/-! ## C1: SELL sizing and the skip branch -/

/-- C1.  For every SELL signal the computed order size is
`min(sharesPerTrade, balance) - 0.5` rounded down to one decimal place,
where the balance is the one returned by the authoritative refresh; and
whenever the computed size is not positive, `execute` records a skip and
returns without creating or posting any order and without an error. -/
theorem sell_sizing_and_skip (env : ExecEnv) (signal : TradingSignal)
    (st : ExecutorState) :
    (signal.direction = .SELL →
      (computeOrderSize env.config env.fetch signal st).1 =
        roundDown SELL_SIZE_DECIMALS
          (min env.config.sharesPerTrade
            (syncConditionalBalance env.fetch signal.token st).1 -
            SELL_SAFETY_BUFFER_SHARES))
    ∧ (∀ market, st.market = some market →
        signal.marketSlug = market.marketSlug →
        (computeOrderSize env.config env.fetch signal st).1 ≤ 0 →
        execute env signal st =
          (.skipped,
           { (computeOrderSize env.config env.fetch signal st).2 with
             lastTradeAtMs := some env.now,
             lastTradeSummary := .skippedTrade signal.direction signal.token },
           [])) := by
  constructor
  · intro hdir
    rcases hsync : syncConditionalBalance env.fetch signal.token st with ⟨avail, st1⟩
    simp [computeOrderSize, hdir, hsync, toFixedRound_roundDown]
  · intro market hm hslug hsize
    rcases hcs : computeOrderSize env.config env.fetch signal st with ⟨size, st1⟩
    rw [hcs] at hsize
    simp only at hsize
    simp [execute, hm, hslug, hcs, hsize, if_pos]

/-- Witness for C1 at the spec's own example: `sharesPerTrade = 10` and
balance 3.2 give size 2.7; balance 0.3 gives a nonpositive size and a
recorded skip. -/
theorem sell_sizing_and_skip_witness :
    (computeOrderSize sampleSellEnv.config sampleSellEnv.fetch sampleSellSignal
        sampleBoundState).1 = 27 / 10
    ∧ execute sampleSkipEnv sampleSellSignal sampleBoundState =
        (.skipped,
         { (computeOrderSize sampleSkipEnv.config sampleSkipEnv.fetch
              sampleSellSignal sampleBoundState).2 with
           lastTradeAtMs := some sampleSkipEnv.now,
           lastTradeSummary := .skippedTrade sampleSellSignal.direction
             sampleSellSignal.token },
         []) := by
  constructor
  · rw [(sell_sizing_and_skip sampleSellEnv sampleSellSignal sampleBoundState).1 rfl]
    with_unfolding_all decide
  · exact (sell_sizing_and_skip sampleSkipEnv sampleSellSignal sampleBoundState).2
      sampleMarket rfl rfl (by with_unfolding_all decide)

/-! ## C2: price normalization -/

/-- C2 counterexample.  The raw price `0.99999` is accepted (the strict
`(0,1)` check runs before rounding), yet the returned normalized price is
exactly `1` after rounding to 4 decimal places — so the normalized price of
an accepted signal does not always lie strictly between 0 and 1. -/
theorem normalizePrice_boundary_counterexample :
    normalizePrice (some (JVal.num (99999 / 100000))) = Except.ok 1 := by
  with_unfolding_all rfl

/-- C2 amended.  For every raw value `v`, the conversion divides by 100 iff
`v > 1`; normalization succeeds iff the converted (pre-rounding) value lies
strictly inside `(0,1)`, in which case the result is that value rounded to
4 decimal places, which lies in the closed interval `[0,1]`. -/
theorem normalizePrice_spec (raw : Option JVal) (v : ℚ)
    (hv : jsNumberOfJVal raw = some v) :
    ((0 < convertPrice v ∧ convertPrice v < 1) →
      normalizePrice raw = .ok (toFixedRound 4 (convertPrice v)) ∧
      0 ≤ toFixedRound 4 (convertPrice v) ∧ toFixedRound 4 (convertPrice v) ≤ 1)
    ∧ (¬(0 < convertPrice v ∧ convertPrice v < 1) →
      normalizePrice raw = .error "Signal price must be in (0,1)") := by
  constructor
  · rintro ⟨h0, h1⟩
    refine ⟨?_, ?_, ?_⟩
    · simp only [normalizePrice, hv]
      rw [if_neg]
      rintro (h | h) <;> linarith
    · unfold toFixedRound
      apply div_nonneg _ (by positivity)
      have : (0 : ℤ) ≤ ⌊convertPrice v * (10 : ℚ) ^ 4 + 1 / 2⌋ := by
        apply Int.floor_nonneg.mpr
        nlinarith
      exact_mod_cast this
    · unfold toFixedRound
      rw [div_le_one (by positivity)]
      have hlt : convertPrice v * (10 : ℚ) ^ 4 < 10000 := by nlinarith
      have : (⌊convertPrice v * (10 : ℚ) ^ 4 + 1 / 2⌋ : ℤ) < 10001 := by
        apply Int.floor_lt.mpr
        push_cast
        linarith
      have h10 : (⌊convertPrice v * (10 : ℚ) ^ 4 + 1 / 2⌋ : ℤ) ≤ 10000 := by omega
      calc ((⌊convertPrice v * (10 : ℚ) ^ 4 + 1 / 2⌋ : ℤ) : ℚ)
          ≤ (10000 : ℚ) := by exact_mod_cast h10
        _ = (10 : ℚ) ^ 4 := by norm_num
  · intro h
    have hco : convertPrice v ≤ 0 ∨ convertPrice v ≥ 1 := by
      by_contra h'
      push_neg at h'
      exact h ⟨h'.1, h'.2⟩
    simp only [normalizePrice, hv]
    rw [if_pos hco]

/-- Witness for C2 at `v = 47` (percentage branch, accepted) and `v = 1`
(converted value not strictly inside `(0,1)`, rejected). -/
theorem normalizePrice_spec_witness :
    (normalizePrice (some (JVal.num 47)) = .ok (toFixedRound 4 (convertPrice 47)) ∧
      0 ≤ toFixedRound 4 (convertPrice 47) ∧ toFixedRound 4 (convertPrice 47) ≤ 1)
    ∧ normalizePrice (some (JVal.num 1)) = .error "Signal price must be in (0,1)" :=
  ⟨(normalizePrice_spec (some (JVal.num 47)) 47 rfl).1
      (by constructor <;> norm_num [convertPrice]),
   (normalizePrice_spec (some (JVal.num 1)) 1 rfl).2
      (by norm_num [convertPrice])⟩

/-! ## C3: execute precondition errors -/

/-- C3.  With no bound market, `execute` fails with the no-active-market
error; with a bound market whose slug differs from the signal's,
it fails with the market-mismatch error.  In both cases the state (hence
the position ledger) is unchanged and no order event is emitted. -/
theorem execute_precondition_errors (env : ExecEnv) (signal : TradingSignal)
    (st : ExecutorState) :
    (st.market = none →
      execute env signal st = (.errNoActiveMarket, st, []))
    ∧ (∀ m, st.market = some m → signal.marketSlug ≠ m.marketSlug →
      execute env signal st = (.errMarketMismatch, st, [])) := by
  constructor
  · intro h
    simp [execute, h]
  · intro m hm hne
    simp [execute, hm, hne]

/-- Witness for C3: an unbound executor and a signal for a stale slug. -/
theorem execute_precondition_errors_witness :
    execute sampleSellEnv sampleSignal {} = (.errNoActiveMarket, {}, [])
    ∧ execute sampleSellEnv { sampleSignal with marketSlug := "other-market-slug" }
        sampleBoundState = (.errMarketMismatch, sampleBoundState, []) :=
  ⟨(execute_precondition_errors sampleSellEnv sampleSignal {}).1 rfl,
   (execute_precondition_errors sampleSellEnv
      { sampleSignal with marketSlug := "other-market-slug" } sampleBoundState).2
      sampleMarket rfl (by decide)⟩

/-! ## C5: ledger reset on market identity change -/

/-- C5.  `updateMarket` resets both outcome ledgers to zero exactly when the
identity triple `(marketSlug, upTokenId, downTokenId)` differs from the
currently bound market (or none is bound); an identical triple leaves the
ledger (and every other field except the stored market) unchanged. -/
theorem updateMarket_ledger_reset (st : ExecutorState) (m : ResolvedMarket) :
    (marketIdentityChanged st.market m = true →
      updateMarket st m =
        { st with market := some m, knownShares := { up := 0, down := 0 } })
    ∧ (marketIdentityChanged st.market m = false →
      updateMarket st m = { st with market := some m }) := by
  constructor <;> intro h <;> simp [updateMarket, h]

/-- Witness for C5: binding a first market resets the ledger; re-binding the
identical market preserves a nonzero ledger. -/
theorem updateMarket_ledger_reset_witness :
    updateMarket { knownShares := { up := 2, down := 3 } } sampleMarket =
      { market := some sampleMarket, knownShares := { up := 0, down := 0 } }
    ∧ updateMarket
        { market := some sampleMarket, knownShares := { up := 2, down := 3 } }
        sampleMarket =
      { market := some sampleMarket, knownShares := { up := 2, down := 3 } } :=
  ⟨(updateMarket_ledger_reset { knownShares := { up := 2, down := 3 } }
      sampleMarket).1 rfl,
   (updateMarket_ledger_reset
      { market := some sampleMarket, knownShares := { up := 2, down := 3 } }
      sampleMarket).2 (by decide)⟩

/-- Reading back the ledger entry that was just overwritten. -/
theorem Shares.get_set_self (s : Shares) (t : Token) (q : ℚ) :
    (s.set t q).get t = q := by
  cases t <;> rfl

/-! ## C10: balance parsing and cache policy -/

/-- C10.  A balance string without a decimal point whose numeric value has
magnitude at least 100000 is divided by 1000000; missing, empty or
non-numeric values parse to 0; and the cached ledger entry is overwritten
exactly when the fetch succeeds and the parsed balance is nonnegative
(always finite in the rational model) — otherwise the cached value is kept
and returned. -/
theorem balance_parsing_and_caching (fetch : BalanceFetch) (token : Token)
    (st : ExecutorState) :
    (∀ (s : String) (n : ℚ),
      stripQuotes (jsTrim s) ≠ "" →
      (stripQuotes (jsTrim s)).data.contains '.' = false →
      jsNumber (stripQuotes (jsTrim s)) = some n →
      100000 ≤ |n| →
      parseMaybeFixed6 (some (.str s)) = n / 1000000)
    ∧ parseMaybeFixed6 none = 0
    ∧ (∀ (s : String), stripQuotes (jsTrim s) = "" →
        parseMaybeFixed6 (some (.str s)) = 0)
    ∧ (∀ (s : String),
        (stripQuotes (jsTrim s)).data.contains '.' = false →
        jsNumber (stripQuotes (jsTrim s)) = none →
        parseMaybeFixed6 (some (.str s)) = 0)
    ∧ (∀ (s : String),
        (stripQuotes (jsTrim s)).data.contains '.' = true →
        jsParseFloat (stripQuotes (jsTrim s)) = none →
        parseMaybeFixed6 (some (.str s)) = 0)
    ∧ (∀ bal, fetch = .ok bal → 0 ≤ parseMaybeFixed6 bal →
        syncConditionalBalance fetch token st =
          (parseMaybeFixed6 bal,
           { st with knownShares := st.knownShares.set token (parseMaybeFixed6 bal) }))
    ∧ (∀ bal, fetch = .ok bal → parseMaybeFixed6 bal < 0 →
        syncConditionalBalance fetch token st = (st.knownShares.get token, st))
    ∧ (fetch = .failure →
        syncConditionalBalance fetch token st = (st.knownShares.get token, st)) := by
  refine ⟨?_, rfl, ?_, ?_, ?_, ?_, ?_, ?_⟩
  · intro s n h1 h2 h3 h4
    simp only [parseMaybeFixed6, jvalToString]
    rw [if_neg h1, if_neg (by simpa using h2), h3]
    show (if 100000 ≤ |n| then n / 1000000 else n) = n / 1000000
    rw [if_pos h4]
  · intro s h1
    simp only [parseMaybeFixed6, jvalToString]
    rw [if_pos h1]
  · intro s h2 h3
    have h1 : stripQuotes (jsTrim s) ≠ "" ∨ stripQuotes (jsTrim s) = "" := (em _).symm
    rcases h1 with h1 | h1
    · simp only [parseMaybeFixed6, jvalToString]
      rw [if_neg h1, if_neg (by simpa using h2), h3]
    · simp only [parseMaybeFixed6, jvalToString]
      rw [if_pos h1]
  · intro s h2 h3
    have h1 : stripQuotes (jsTrim s) ≠ "" := by
      intro he
      rw [he] at h2
      simp at h2
    simp only [parseMaybeFixed6, jvalToString]
    rw [if_neg h1, if_pos (by simpa using h2), h3]
  · intro bal hf h0
    subst hf
    simp only [syncConditionalBalance]
    rw [if_pos h0, Shares.get_set_self]
  · intro bal hf hneg
    subst hf
    simp only [syncConditionalBalance]
    rw [if_neg (by linarith)]
  · intro hf
    subst hf
    rfl

/-- Witness for C10: the integral string "123456" is scaled to micro-shares;
a successful fetch of "3.2" overwrites the cache; a failed fetch keeps it. -/
theorem balance_parsing_and_caching_witness :
    parseMaybeFixed6 (some (.str "123456")) = 123456 / 1000000
    ∧ syncConditionalBalance (.ok (some (.str "3.2"))) .UP sampleBoundState =
        (parseMaybeFixed6 (some (.str "3.2")),
         { sampleBoundState with
           knownShares := sampleBoundState.knownShares.set .UP
             (parseMaybeFixed6 (some (.str "3.2"))) })
    ∧ syncConditionalBalance .failure .UP sampleBoundState =
        (sampleBoundState.knownShares.get .UP, sampleBoundState) :=
  ⟨(balance_parsing_and_caching .failure .UP sampleBoundState).1 "123456" 123456
      (by with_unfolding_all decide) (by with_unfolding_all decide)
      (by with_unfolding_all rfl) (by with_unfolding_all decide),
   ((balance_parsing_and_caching (.ok (some (.str "3.2"))) .UP
        sampleBoundState).2.2.2.2.2.1) (some (.str "3.2")) rfl
      (by with_unfolding_all decide),
   ((balance_parsing_and_caching .failure .UP sampleBoundState).2.2.2.2.2.2.2) rfl⟩

/-! ## C4: message classification -/

/-- A wholly absent timestamp fails normalization. -/
theorem normalizeTimestamp_none :
    normalizeTimestamp none = .error "Invalid signal timestamp" := rfl

/-- A wholly absent direction fails normalization. -/
theorem normalizeDirection_none :
    normalizeDirection none = .error "Invalid signal direction" := by
  with_unfolding_all rfl

/-- A wholly absent token fails normalization. -/
theorem normalizeToken_none :
    normalizeToken none = .error "Invalid signal token" := by
  with_unfolding_all rfl

/-- A wholly absent price fails normalization. -/
theorem normalizePrice_none :
    normalizePrice none = .error "Invalid signal price" := rfl

/-- A wholly absent market slug fails normalization. -/
theorem normalizeMarketSlug_none :
    normalizeMarketSlug none = .error "Missing market slug in Redis message." := by
  with_unfolding_all rfl

/-- A signal payload with any required field wholly absent fails to parse. -/
theorem parseSignalPayload_missing_field (p : Payload)
    (h : effTimestamp p = none ∨ effDirection p = none ∨ effToken p = none ∨
      effPrice p = none ∨ effSlug p = none) :
    ∃ e, parseSignalPayload p = .error e := by
  rcases ht : normalizeTimestamp (effTimestamp p) with e | t
  · exact ⟨e, by simp [parseSignalPayload, ht, Bind.bind, Except.bind]⟩
  rcases hd : normalizeDirection (effDirection p) with e | d
  · exact ⟨e, by simp [parseSignalPayload, ht, hd, Bind.bind, Except.bind]⟩
  rcases hk : normalizeToken (effToken p) with e | k
  · exact ⟨e, by simp [parseSignalPayload, ht, hd, hk, Bind.bind, Except.bind]⟩
  rcases hq : normalizePrice (effPrice p) with e | q
  · exact ⟨e, by simp [parseSignalPayload, ht, hd, hk, hq, Bind.bind, Except.bind]⟩
  rcases hs : normalizeMarketSlug (effSlug p) with e | sl
  · exact ⟨e, by simp [parseSignalPayload, ht, hd, hk, hq, hs, Bind.bind, Except.bind]⟩
  exfalso
  rcases h with h | h | h | h | h
  · rw [h, normalizeTimestamp_none] at ht; simp at ht
  · rw [h, normalizeDirection_none] at hd; simp at hd
  · rw [h, normalizeToken_none] at hk; simp at hk
  · rw [h, normalizePrice_none] at hq; simp at hq
  · rw [h, normalizeMarketSlug_none] at hs; simp at hs

/-- A payload carrying a signal-only field is parsed through
`parseSignalPayload` and wrapped as a signal. -/
theorem parseRedisMessage_signal_branch (now : Int) (p : Payload)
    (hc : carriesNoSignalField p = false) :
    parseRedisMessage now p = (parseSignalPayload p).map ParsedRedisMessage.signal := by
  simp only [parseRedisMessage]
  rw [if_neg (by simp [hc])]
  rcases hps : parseSignalPayload p with e | s
  · simp [hps, Bind.bind, Except.bind, Except.map]
  · simp [hps, Bind.bind, Except.bind, Except.map]

/-- C4 counterexample.  The empty JSON object carries none of the
direction/token/price fields, yet it does not parse as a `MarketUpdate`:
`parseRedisMessage` fails because the market slug is missing. -/
theorem parseRedisMessage_empty_counterexample :
    carriesNoSignalField {} = true ∧
    parseRedisMessage 0 {} = Except.error "Missing market slug in Redis message." :=
  ⟨rfl, by with_unfolding_all rfl⟩

/-- C4 amended.  A payload with none of the signal-only fields is parsed as
a market update (which can itself fail validation) and never as a signal; a
payload with at least one signal-only field is parsed as a `TradingSignal`
with every field mandatory: if any required field is wholly absent the
parse fails with an error instead of falling back to a market update. -/
theorem parseRedisMessage_classification (now : Int) (p : Payload) :
    (carriesNoSignalField p = true →
      ∀ s, parseRedisMessage now p ≠ .ok (.signal s))
    ∧ (carriesNoSignalField p = false →
      parseRedisMessage now p = (parseSignalPayload p).map ParsedRedisMessage.signal)
    ∧ (carriesNoSignalField p = false →
      (effTimestamp p = none ∨ effDirection p = none ∨ effToken p = none ∨
        effPrice p = none ∨ effSlug p = none) →
      ∃ e, parseRedisMessage now p = .error e) := by
  refine ⟨?_, parseRedisMessage_signal_branch now p, ?_⟩
  · intro hc s
    simp only [parseRedisMessage]
    rw [if_pos hc]
    rcases ht : normalizeTimestamp (jcoalesce (effTimestamp p) (some (.num (now : ℚ)))) with e | t
    · simp [ht, Bind.bind, Except.bind]
    · rcases hs : normalizeMarketSlug (effSlug p) with e | sl
      · simp [ht, hs, Bind.bind, Except.bind]
      · simp [ht, hs, Bind.bind, Except.bind]
  · intro hc h
    obtain ⟨e, he⟩ := parseSignalPayload_missing_field p h
    exact ⟨e, by rw [parseRedisMessage_signal_branch now p hc, he]; rfl⟩

/-- A payload carrying only a market slug and a timestamp. -/
def marketOnlyPayload : Payload :=
  { market_slug := some (.str "btc-updown-15m"), timestamp := some (.num 1700000000) }

/-- A partial signal payload: a direction alias but nothing else. -/
def partialSignalPayload : Payload := { side := some (.str "b") }

/-- Witness for C4: the market-only payload is never classified as a signal;
the partial signal payload takes the signal branch and fails. -/
theorem parseRedisMessage_classification_witness :
    parseRedisMessage 0 marketOnlyPayload ≠ .ok (.signal sampleSignal)
    ∧ parseRedisMessage 0 partialSignalPayload =
        (parseSignalPayload partialSignalPayload).map ParsedRedisMessage.signal
    ∧ ∃ e, parseRedisMessage 0 partialSignalPayload = .error e :=
  ⟨(parseRedisMessage_classification 0 marketOnlyPayload).1 rfl sampleSignal,
   (parseRedisMessage_classification 0 partialSignalPayload).2.1 rfl,
   (parseRedisMessage_classification 0 partialSignalPayload).2.2 rfl (Or.inl rfl)⟩

/-! ## C8: alias invariance of signal normalization -/

/-- A valid signal payload written with the `side`/`outcome`/`price`/`slug`/
`ts` aliases and shorthand values. -/
def aliasPayloadA : Payload :=
  { side := some (.str "b"), outcome := some (.str "yes"),
    price := some (.num (47 / 100)), slug := some (.str "btc-updown-15m"),
    ts := some (.num 1700000000) }

/-- The same signal written with the canonical field names and values. -/
def aliasPayloadB : Payload :=
  { direction := some (.str "BUY"), token := some (.str "UP"),
    limitPrice := some (.num (47 / 100)),
    market_slug := some (.str "btc-updown-15m"),
    timestamp := some (.num 1700000000) }

/-- The parse of `aliasPayloadA`. -/
def sigFromA : TradingSignal :=
  { timestampMs := 1700000000000, direction := .BUY, token := .UP,
    limitPrice := 47 / 100, marketSlug := "btc-updown-15m", raw := aliasPayloadA }

/-- The parse of `aliasPayloadB`. -/
def sigFromB : TradingSignal :=
  { sigFromA with raw := aliasPayloadB }

/-- C8 counterexample.  Two alias-equivalent payloads both parse
successfully, but the resulting `TradingSignal` records are not identical:
the retained `raw` payload differs. -/
theorem alias_raw_field_counterexample :
    parseSignalPayload aliasPayloadA = .ok sigFromA
    ∧ parseSignalPayload aliasPayloadB = .ok sigFromB
    ∧ sigFromA ≠ sigFromB := by
  refine ⟨by with_unfolding_all rfl, by with_unfolding_all rfl, fun h => ?_⟩
  exact absurd (congrArg TradingSignal.raw h) (by with_unfolding_all decide)

/-- Two payloads are alias-equivalent when each of the five signal fields
normalizes to the same result (this captures differing alias field names,
alias values and letter case). -/
def aliasEquiv (p1 p2 : Payload) : Prop :=
  normalizeTimestamp (effTimestamp p1) = normalizeTimestamp (effTimestamp p2) ∧
  normalizeDirection (effDirection p1) = normalizeDirection (effDirection p2) ∧
  normalizeToken (effToken p1) = normalizeToken (effToken p2) ∧
  normalizePrice (effPrice p1) = normalizePrice (effPrice p2) ∧
  normalizeMarketSlug (effSlug p1) = normalizeMarketSlug (effSlug p2)

/-- Successful parses determine each normalized component. -/
theorem parseSignalPayload_ok_elim {p : Payload} {s : TradingSignal}
    (h : parseSignalPayload p = .ok s) :
    normalizeTimestamp (effTimestamp p) = .ok s.timestampMs ∧
    normalizeDirection (effDirection p) = .ok s.direction ∧
    normalizeToken (effToken p) = .ok s.token ∧
    normalizePrice (effPrice p) = .ok s.limitPrice ∧
    normalizeMarketSlug (effSlug p) = .ok s.marketSlug ∧ s.raw = p := by
  rcases ht : normalizeTimestamp (effTimestamp p) with e | t <;>
    simp [parseSignalPayload, ht, Bind.bind, Except.bind] at h
  rcases hd : normalizeDirection (effDirection p) with e | d <;>
    simp [hd] at h
  rcases hk : normalizeToken (effToken p) with e | k <;>
    simp [hk] at h
  rcases hq : normalizePrice (effPrice p) with e | q <;>
    simp [hq] at h
  rcases hs : normalizeMarketSlug (effSlug p) with e | sl <;>
    simp [hs] at h
  subst h
  exact ⟨rfl, rfl, rfl, rfl, rfl, rfl⟩

/-- C8 amended.  Alias-equivalent valid payloads normalize to
`TradingSignal`s that agree on every semantic field (timestamp, direction,
token, limit price, market slug); only the retained diagnostic `raw`
payload differs. -/
theorem parse_alias_invariance (p1 p2 : Payload) (h : aliasEquiv p1 p2)
    (s1 s2 : TradingSignal)
    (h1 : parseSignalPayload p1 = .ok s1)
    (h2 : parseSignalPayload p2 = .ok s2) :
    s1.timestampMs = s2.timestampMs ∧ s1.direction = s2.direction ∧
    s1.token = s2.token ∧ s1.limitPrice = s2.limitPrice ∧
    s1.marketSlug = s2.marketSlug := by
  obtain ⟨a1, b1, c1, d1, e1, -⟩ := parseSignalPayload_ok_elim h1
  obtain ⟨a2, b2, c2, d2, e2, -⟩ := parseSignalPayload_ok_elim h2
  obtain ⟨ha, hb, hc, hd, he⟩ := h
  rw [a1, a2] at ha
  rw [b1, b2] at hb
  rw [c1, c2] at hc
  rw [d1, d2] at hd
  rw [e1, e2] at he
  exact ⟨by injection ha, by injection hb, by injection hc,
    by injection hd, by injection he⟩

/-- Witness for C8 at the two alias-equivalent payloads above. -/
theorem parse_alias_invariance_witness :
    sigFromA.timestampMs = sigFromB.timestampMs ∧
    sigFromA.direction = sigFromB.direction ∧
    sigFromA.token = sigFromB.token ∧
    sigFromA.limitPrice = sigFromB.limitPrice ∧
    sigFromA.marketSlug = sigFromB.marketSlug :=
  parse_alias_invariance aliasPayloadA aliasPayloadB
    ⟨by with_unfolding_all rfl, by with_unfolding_all rfl,
     by with_unfolding_all rfl, by with_unfolding_all rfl,
     by with_unfolding_all rfl⟩
    sigFromA sigFromB (by with_unfolding_all rfl) (by with_unfolding_all rfl)

/-! ## C6: all-or-nothing Redis reconfiguration -/

/-- C6.  If a reconfiguration request changes the host, the port or the
credential and connecting/subscribing to the new target fails, the previous
connection handle and the whole previous effective target are preserved
unchanged; and a request resolving to an identical effective target is a
no-op (state unchanged, no Redis action performed). -/
theorem updateRedisTarget_all_or_nothing (oracle : ConnectOracle)
    (next : RedisTargetPatch) (st : SubscriberState) :
    ((nextHostOf next st ≠ st.currentHost ∨ nextPortOf next st ≠ st.currentPort ∨
        nextPasswordOf next st ≠ st.currentPassword) →
      oracle.subscribeOk = false →
      (updateRedisTarget oracle next st).1.redis = st.redis ∧
      (updateRedisTarget oracle next st).1.currentHost = st.currentHost ∧
      (updateRedisTarget oracle next st).1.currentPort = st.currentPort ∧
      (updateRedisTarget oracle next st).1.currentChannel = st.currentChannel ∧
      (updateRedisTarget oracle next st).1.currentPassword = st.currentPassword)
    ∧ (nextHostOf next st = st.currentHost → nextPortOf next st = st.currentPort →
      nextChannelOf next st = st.currentChannel →
      nextPasswordOf next st = st.currentPassword →
      updateRedisTarget oracle next st = (st, [])) := by
  constructor
  · intro hch hfail
    by_cases hg : nextHostOf next st = "" ∨ nextChannelOf next st = "" ∨
        nextPortOf next st ≤ 0
    · simp [updateRedisTarget, hg]
    · by_cases hnc : nextHostOf next st ≠ st.currentHost ∨
          nextPortOf next st ≠ st.currentPort ∨
          nextChannelOf next st ≠ st.currentChannel ∨
          nextPasswordOf next st ≠ st.currentPassword
      · have hcond : ¬(¬(nextHostOf next st ≠ st.currentHost) ∧
            ¬(nextPortOf next st ≠ st.currentPort) ∧
            ¬(nextChannelOf next st ≠ st.currentChannel) ∧
            ¬(nextPasswordOf next st ≠ st.currentPassword)) := by tauto
        simp only [updateRedisTarget]
        rw [if_neg hg, if_neg hcond, if_pos hch]
        rcases hr : st.redis with _ | prev <;> simp [hfail, hr]
      · push_neg at hnc
        exact absurd hch (by tauto)
  · intro h1 h2 h3 h4
    by_cases hg : nextHostOf next st = "" ∨ nextChannelOf next st = "" ∨
        nextPortOf next st ≤ 0
    · simp [updateRedisTarget, hg]
    · simp only [updateRedisTarget]
      rw [if_neg hg, if_pos (by simp [h1, h2, h3, h4])]

/-- A subscriber connected to the default local target. -/
def sampleSubState : SubscriberState :=
  { redis := some { id := 1, status := "ready" },
    currentHost := "127.0.0.1", currentPort := 6379,
    currentChannel := "ODDS_FOR_COMMUNITY", connected := true }

/-- Witness for C6: switching to an unreachable host keeps the previous
connection and target; re-requesting the current target is a no-op. -/
theorem updateRedisTarget_all_or_nothing_witness :
    ((updateRedisTarget { conn := { id := 2, status := "wait" }, subscribeOk := false }
        { host := some "redis.example.org" } sampleSubState).1.redis =
          sampleSubState.redis ∧
      (updateRedisTarget { conn := { id := 2, status := "wait" }, subscribeOk := false }
        { host := some "redis.example.org" } sampleSubState).1.currentHost =
          sampleSubState.currentHost ∧
      (updateRedisTarget { conn := { id := 2, status := "wait" }, subscribeOk := false }
        { host := some "redis.example.org" } sampleSubState).1.currentPort =
          sampleSubState.currentPort ∧
      (updateRedisTarget { conn := { id := 2, status := "wait" }, subscribeOk := false }
        { host := some "redis.example.org" } sampleSubState).1.currentChannel =
          sampleSubState.currentChannel ∧
      (updateRedisTarget { conn := { id := 2, status := "wait" }, subscribeOk := false }
        { host := some "redis.example.org" } sampleSubState).1.currentPassword =
          sampleSubState.currentPassword)
    ∧ updateRedisTarget { conn := { id := 2, status := "wait" }, subscribeOk := true }
        { host := some "127.0.0.1", channel := some "ODDS_FOR_COMMUNITY" }
        sampleSubState = (sampleSubState, []) :=
  ⟨(updateRedisTarget_all_or_nothing
      { conn := { id := 2, status := "wait" }, subscribeOk := false }
      { host := some "redis.example.org" } sampleSubState).1
      (Or.inl (by with_unfolding_all decide)) rfl,
   (updateRedisTarget_all_or_nothing
      { conn := { id := 2, status := "wait" }, subscribeOk := true }
      { host := some "127.0.0.1", channel := some "ODDS_FOR_COMMUNITY" }
      sampleSubState).2
      (by with_unfolding_all rfl) rfl
      (by with_unfolding_all rfl) rfl⟩

/-! ## C7: submission success and failure bookkeeping -/

/-- Oracle set for a BUY of `10^-7` shares that posts successfully. -/
def c7BuyEnv : ExecEnv :=
  { config := { sharesPerTrade := Rat.divInt 1 10000000, signalMaxAgeMs := 1000 },
    fetch := .unsupported, createResult := .ok (), postResult := .ok none, now := 0 }

/-- Oracle set for a SELL whose authoritative balance is 2 shares and whose
submission fails. -/
def c7SellFailEnv : ExecEnv :=
  { config := sampleConfig, fetch := .ok (some (.str "2")),
    createResult := .ok (), postResult := .failure "boom", now := 0 }

/-- Executor state holding 5 UP shares on `sampleMarket`. -/
def c7SellState : ExecutorState :=
  { market := some sampleMarket, knownShares := { up := 5, down := 0 } }

/-- C7 counterexample.  (a) A successful BUY of `10^-7` shares leaves the
ledger at `0`, not at `ledger + size`: the update rounds to 6 decimal
places.  (b) A failed SELL does not leave the ledger unchanged: the
authoritative refresh performed before sizing already overwrote the cached
5 shares with 2. -/
theorem execute_ledger_counterexample :
    (execute c7BuyEnv sampleSignal sampleBoundState).1 = .completed
    ∧ (execute c7BuyEnv sampleSignal sampleBoundState).2.1.knownShares.get .UP = 0
    ∧ sampleBoundState.knownShares.get .UP + c7BuyEnv.config.sharesPerTrade ≠ 0
    ∧ (execute c7SellFailEnv sampleSellSignal c7SellState).1 = .errTradeFailed "boom"
    ∧ (execute c7SellFailEnv sampleSellSignal c7SellState).2.1.knownShares.get .UP = 2
    ∧ c7SellState.knownShares.get .UP ≠ 2 :=
  ⟨by with_unfolding_all rfl, by with_unfolding_all rfl,
   by with_unfolding_all decide, by with_unfolding_all rfl,
   by with_unfolding_all rfl, by with_unfolding_all decide⟩

/-- C7 amended.  With a matching bound market, a positive computed size and
a created order: if submission fails, `execute` increments the failed
count, records the FAILED summary, performs exactly one submission (no
retry) and ends in the propagated-error outcome, leaving the ledger exactly
as it was after sizing (no optimistic update; for a SELL the
authoritative refresh before sizing may already have rewritten the cache);
if submission succeeds, the sent count is incremented and the ledger entry
becomes the 6-decimal rounding of `ledger + size` for BUY and
`max 0` of the 6-decimal rounding of `ledger - size` for SELL. -/
theorem execute_submission_outcomes (env : ExecEnv) (signal : TradingSignal)
    (st : ExecutorState) (market : ResolvedMarket)
    (hm : st.market = some market)
    (hs : signal.marketSlug = market.marketSlug)
    (hsize : 0 < (computeOrderSize env.config env.fetch signal st).1)
    (hcr : env.createResult = .ok ()) :
    (∀ msg, env.postResult = .failure msg →
      execute env signal st =
        (.errTradeFailed msg,
         { (computeOrderSize env.config env.fetch signal st).2 with
           failedCount :=
             (computeOrderSize env.config env.fetch signal st).2.failedCount + 1,
           lastTradeAtMs := some env.now,
           lastTradeSummary := .failedTrade signal.direction signal.token
             (execPrice signal)
             (computeOrderSize env.config env.fetch signal st).1 },
         [.createOrder (mapTokenToId market signal.token) signal.direction
            (execPrice signal) (computeOrderSize env.config env.fetch signal st).1,
          .postOrder (mapTokenToId market signal.token) signal.direction
            (execPrice signal) (computeOrderSize env.config env.fetch signal st).1]))
    ∧ (∀ oid, env.postResult = .ok oid →
      execute env signal st =
        (.completed,
         { (computeOrderSize env.config env.fetch signal st).2 with
           sentCount :=
             (computeOrderSize env.config env.fetch signal st).2.sentCount + 1,
           lastTradeAtMs := some env.now,
           lastOrderId := some (orderIdString oid),
           lastTradeSummary := .sent signal.direction signal.token
             (execPrice signal)
             (computeOrderSize env.config env.fetch signal st).1,
           knownShares :=
             match signal.direction with
             | .BUY =>
               (computeOrderSize env.config env.fetch signal st).2.knownShares.set
                 signal.token
                 (toFixedRound 6
                   ((computeOrderSize env.config env.fetch signal st).2.knownShares.get
                     signal.token +
                     (computeOrderSize env.config env.fetch signal st).1))
             | .SELL =>
               (computeOrderSize env.config env.fetch signal st).2.knownShares.set
                 signal.token
                 (max 0 (toFixedRound 6
                   ((computeOrderSize env.config env.fetch signal st).2.knownShares.get
                     signal.token -
                     (computeOrderSize env.config env.fetch signal st).1))) },
         [.createOrder (mapTokenToId market signal.token) signal.direction
            (execPrice signal) (computeOrderSize env.config env.fetch signal st).1,
          .postOrder (mapTokenToId market signal.token) signal.direction
            (execPrice signal) (computeOrderSize env.config env.fetch signal st).1])) := by
  have hnle : ¬(computeOrderSize env.config env.fetch signal st).1 ≤ 0 :=
    not_le.mpr hsize
  constructor
  · intro msg hpo
    rcases hcs : computeOrderSize env.config env.fetch signal st with ⟨size, st1⟩
    rw [hcs] at hnle
    simp only [hcs]
    simp [execute, hm, hs, hcs, hcr, hpo, hnle]
  · intro oid hpo
    rcases hcs : computeOrderSize env.config env.fetch signal st with ⟨size, st1⟩
    rw [hcs] at hnle
    simp only [hcs]
    simp [execute, hm, hs, hcs, hcr, hpo, hnle]

/-- Witness for C7: the failed SELL above and a successful BUY of 10 shares. -/
theorem execute_submission_outcomes_witness :
    execute c7SellFailEnv sampleSellSignal c7SellState =
      (.errTradeFailed "boom",
       { (computeOrderSize c7SellFailEnv.config c7SellFailEnv.fetch sampleSellSignal
            c7SellState).2 with
         failedCount :=
           (computeOrderSize c7SellFailEnv.config c7SellFailEnv.fetch sampleSellSignal
              c7SellState).2.failedCount + 1,
         lastTradeAtMs := some c7SellFailEnv.now,
         lastTradeSummary := .failedTrade sampleSellSignal.direction
           sampleSellSignal.token (execPrice sampleSellSignal)
           (computeOrderSize c7SellFailEnv.config c7SellFailEnv.fetch sampleSellSignal
              c7SellState).1 },
       [.createOrder (mapTokenToId sampleMarket sampleSellSignal.token)
          sampleSellSignal.direction (execPrice sampleSellSignal)
          (computeOrderSize c7SellFailEnv.config c7SellFailEnv.fetch sampleSellSignal
             c7SellState).1,
        .postOrder (mapTokenToId sampleMarket sampleSellSignal.token)
          sampleSellSignal.direction (execPrice sampleSellSignal)
          (computeOrderSize c7SellFailEnv.config c7SellFailEnv.fetch sampleSellSignal
             c7SellState).1])
    ∧ execute sampleSellEnv sampleSignal sampleBoundState =
      (.completed,
       { (computeOrderSize sampleSellEnv.config sampleSellEnv.fetch sampleSignal
            sampleBoundState).2 with
         sentCount :=
           (computeOrderSize sampleSellEnv.config sampleSellEnv.fetch sampleSignal
              sampleBoundState).2.sentCount + 1,
         lastTradeAtMs := some sampleSellEnv.now,
         lastOrderId := some (orderIdString (some (.str "oid-1"))),
         lastTradeSummary := .sent sampleSignal.direction sampleSignal.token
           (execPrice sampleSignal)
           (computeOrderSize sampleSellEnv.config sampleSellEnv.fetch sampleSignal
              sampleBoundState).1,
         knownShares :=
           (computeOrderSize sampleSellEnv.config sampleSellEnv.fetch sampleSignal
              sampleBoundState).2.knownShares.set sampleSignal.token
             (toFixedRound 6
               ((computeOrderSize sampleSellEnv.config sampleSellEnv.fetch sampleSignal
                   sampleBoundState).2.knownShares.get sampleSignal.token +
                 (computeOrderSize sampleSellEnv.config sampleSellEnv.fetch sampleSignal
                    sampleBoundState).1)) },
       [.createOrder (mapTokenToId sampleMarket sampleSignal.token)
          sampleSignal.direction (execPrice sampleSignal)
          (computeOrderSize sampleSellEnv.config sampleSellEnv.fetch sampleSignal
             sampleBoundState).1,
        .postOrder (mapTokenToId sampleMarket sampleSignal.token)
          sampleSignal.direction (execPrice sampleSignal)
          (computeOrderSize sampleSellEnv.config sampleSellEnv.fetch sampleSignal
             sampleBoundState).1]) :=
  ⟨(execute_submission_outcomes c7SellFailEnv sampleSellSignal c7SellState
      sampleMarket rfl rfl (by with_unfolding_all decide) rfl).1 "boom" rfl,
   (execute_submission_outcomes sampleSellEnv sampleSignal sampleBoundState
      sampleMarket rfl rfl (by with_unfolding_all decide) rfl).2
      (some (.str "oid-1")) rfl⟩

/-! ## C9: stale-signal handling -/

/-- C9.  A successfully parsed signal older than the hardcoded 1000 ms
maximum increments the stale counter and is never executed, but the
active-market rebinding callback is still invoked for the signal's slug
before `handleMessage` returns. -/
theorem stale_signal_handling (env : HandleEnv) (input : Except String Payload)
    (pst : PipelineState) (signal : TradingSignal)
    (hp : input.bind (fun p => parseRedisMessage env.execEnv.now p) =
      .ok (.signal signal))
    (hcfg : env.execEnv.config.signalMaxAgeMs = HARD_CODED_SIGNAL_MAX_AGE_MS)
    (hstale : HARD_CODED_SIGNAL_MAX_AGE_MS < env.execEnv.now - signal.timestampMs) :
    (handleMessage env input pst).1.sub.staleCount = pst.sub.staleCount + 1
    ∧ (handleMessage env input pst).2 = [SubEvent.bindCall signal.marketSlug .signal]
    ∧ ∀ s, SubEvent.executeCall s ∉ (handleMessage env input pst).2 := by
  have hres : (handleMessage env input pst).1.sub.staleCount = pst.sub.staleCount + 1
      ∧ (handleMessage env input pst).2 =
        [SubEvent.bindCall signal.marketSlug .signal] := by
    simp only [handleMessage, hp]
    rw [hcfg, if_pos hstale]
    rcases hb : applyBind env.onBind pst.exec with e | ex1 <;> simp [hb]
  refine ⟨hres.1, hres.2, ?_⟩
  intro s hmem
  rw [hres.2] at hmem
  simp at hmem

/-- A signal payload whose timestamp is 2 seconds behind the clock. -/
def stalePipelineState : PipelineState :=
  { sub := sampleSubState, exec := sampleBoundState }

/-- Oracle set for a stale-signal delivery: the clock is 2000 ms past the
signal's timestamp and the rebinding callback succeeds without change. -/
def staleEnv : HandleEnv :=
  { execEnv := { sampleSellEnv with now := 1700000002000 },
    onBind := .skippedBind }

/-- Witness for C9 at a concrete stale signal (2000 ms old). -/
theorem stale_signal_handling_witness :
    (handleMessage staleEnv (.ok aliasPayloadA) stalePipelineState).1.sub.staleCount =
      stalePipelineState.sub.staleCount + 1
    ∧ (handleMessage staleEnv (.ok aliasPayloadA) stalePipelineState).2 =
      [SubEvent.bindCall sigFromA.marketSlug .signal]
    ∧ ∀ s, SubEvent.executeCall s ∉
        (handleMessage staleEnv (.ok aliasPayloadA) stalePipelineState).2 :=
  stale_signal_handling staleEnv (.ok aliasPayloadA) stalePipelineState sigFromA
    (by with_unfolding_all rfl) rfl (by with_unfolding_all decide)

end SignalsTrader
